import Mathlib

/-!
# Verification of the booking-export pipeline

Shallow embedding of the Excel-parsing / CSV-export pipeline
(`excelParser.js`, the CSV export module) together with proofs of the
behavioural properties claimed in the specification.

JavaScript values appearing in parsed worksheet rows are modelled by
`JSVal`; JS numbers are modelled as integers (`Int`) for underlying cell
values — every number reaching the date logic is range-guarded, and the
claims only exercise integral values — while the results of `parseFloat`
on raw text are modelled exactly as rationals (`Rat`).
-/

namespace BookingExport

/-- A JavaScript value as it can appear in a `sheet_to_json` row:
a string, a number, `undefined`, or `null`. -/
inductive JSVal where
  | str (s : String)
  | num (n : Int)
  | undefined
  | null
  deriving DecidableEq, Repr

/-- JS truthiness for the values of `JSVal`: empty string, `0`,
`undefined` and `null` are falsy. -/
def jsTruthy : JSVal → Bool
  | .str s => s ≠ ""
  | .num n => n ≠ 0
  | .undefined => false
  | .null => false

/-- Rendering `String(value)` for the modelled values. -/
def jsString : JSVal → String
  | .str s => s
  | .num n => toString n
  | .undefined => "undefined"
  | .null => "null"

/-- Array indexing `row[index]` with a (possibly negative or
out-of-range) index: out-of-range access yields `undefined`. -/
def jsIndex (row : List JSVal) (index : Int) : JSVal :=
  if h : 0 ≤ index ∧ index.toNat < row.length then row.get ⟨index.toNat, h.2⟩
  else .undefined

/-- The call `s.trim()`: strip leading and trailing whitespace
(implemented at the character level so that it evaluates by kernel
reduction). -/
def jsTrim (s : String) : String :=
  String.mk ((s.data.dropWhile Char.isWhitespace).reverse.dropWhile Char.isWhitespace).reverse

/-- The call `s.toLowerCase()` (ASCII, at the character level). -/
def jsToLower (s : String) : String :=
  String.mk (s.data.map Char.toLower)

/-- The test `s.startsWith('0')`. -/
def jsStartsWithZero (s : String) : Bool :=
  match s.data with
  | '0' :: _ => true
  | _ => false

/-- Value of a list of decimal digit characters. -/
def digitsToNat (ds : List Char) : Nat :=
  ds.foldl (fun a c => a * 10 + (c.toNat - 48)) 0

/-- The call `parseInt(s, 10)`: skip leading whitespace, optional sign, then the
longest prefix of decimal digits; `none` models `NaN` (no digits). -/
def jsParseInt (s : String) : Option Int :=
  let cs := s.data.dropWhile Char.isWhitespace
  let (sign, cs1) : Int × List Char :=
    match cs with
    | '-' :: r => (-1, r)
    | '+' :: r => (1, r)
    | _ => (1, cs)
  let ds := cs1.takeWhile Char.isDigit
  if ds.isEmpty then none else some (sign * (digitsToNat ds : Int))

/-- The call `parseFloat(s)`: skip leading whitespace, optional sign, decimal
digits with optional fractional part and optional exponent; the number
denoted by the longest valid prefix, exactly as a rational. `none`
models `NaN` (no digits at all). The `Infinity` literal is not modelled:
every use in the source range-guards the result with
`v > 1 && v < 1000000`, under which `Infinity` and `NaN` behave
identically (the guard fails). -/
def jsParseFloat (s : String) : Option Rat :=
  let cs := s.data.dropWhile Char.isWhitespace
  let (sign, cs1) : Rat × List Char :=
    match cs with
    | '-' :: r => (-1, r)
    | '+' :: r => (1, r)
    | _ => (1, cs)
  let ip := cs1.takeWhile Char.isDigit
  let cs2 := cs1.dropWhile Char.isDigit
  let (fp, cs3) : List Char × List Char :=
    match cs2 with
    | '.' :: r => (r.takeWhile Char.isDigit, r.dropWhile Char.isDigit)
    | _ => ([], cs2)
  if ip.isEmpty && fp.isEmpty then none
  else
    let mant : Rat := (digitsToNat ip : Rat) + (digitsToNat fp : Rat) / ((10 : Rat) ^ fp.length)
    let exp : Int :=
      match cs3 with
      | e :: r =>
        if e = 'e' ∨ e = 'E' then
          let (esign, r2) : Int × List Char :=
            match r with
            | '-' :: q => (-1, q)
            | '+' :: q => (1, q)
            | _ => (1, r)
          let ed := r2.takeWhile Char.isDigit
          if ed.isEmpty then 0 else esign * (digitsToNat ed : Int)
        else 0
      | [] => 0
    let scaled : Rat :=
      if 0 ≤ exp then mant * (10 : Rat) ^ exp.toNat else mant / (10 : Rat) ^ (-exp).toNat
    some (sign * scaled)

/-- JS `ToNumber` on a string, as applied when a string occurs as an
arithmetic operand: surrounding whitespace is allowed, the empty (or
all-whitespace) string is 0, and otherwise the whole remaining string
must be one optionally-signed decimal literal — digits with optional
fractional part, or a bare fractional part, with an optional complete
exponent. Anything else is `NaN` (`none`); the unmodelled
hexadecimal/binary/octal and `Infinity` forms also map to `none`, which
coincides with the program's observable behaviour for `Infinity` (an
infinite date is invalid and formats to the empty string, like `NaN`)
and is the one remaining idealisation for radix-prefixed literals. -/
def jsToNumber (s : String) : Option Rat :=
  let cs0 := ((s.data.dropWhile Char.isWhitespace).reverse.dropWhile Char.isWhitespace).reverse
  if cs0.isEmpty then some 0
  else
    let (sign, cs1) : Rat × List Char :=
      match cs0 with
      | '-' :: r => (-1, r)
      | '+' :: r => (1, r)
      | _ => (1, cs0)
    let ip := cs1.takeWhile Char.isDigit
    let cs2 := cs1.dropWhile Char.isDigit
    let (fp, cs3) : List Char × List Char :=
      match cs2 with
      | '.' :: r => (r.takeWhile Char.isDigit, r.dropWhile Char.isDigit)
      | _ => ([], cs2)
    if ip.isEmpty && fp.isEmpty then none
    else
      let mant : Rat := (digitsToNat ip : Rat) + (digitsToNat fp : Rat) / ((10 : Rat) ^ fp.length)
      match cs3 with
      | [] => some (sign * mant)
      | e :: r =>
        if e = 'e' ∨ e = 'E' then
          let (esign, r2) : Int × List Char :=
            match r with
            | '-' :: q => (-1, q)
            | '+' :: q => (1, q)
            | _ => (1, r)
          let ed := r2.takeWhile Char.isDigit
          let r3 := r2.dropWhile Char.isDigit
          if ed.isEmpty || !r3.isEmpty then none
          else
            let exp : Int := esign * (digitsToNat ed : Int)
            some (sign *
              (if 0 ≤ exp then mant * (10 : Rat) ^ exp.toNat else mant / (10 : Rat) ^ (-exp).toNat))
        else none

/-- Day count since the Unix epoch (1970-01-01) of a civil date
(proleptic Gregorian calendar); month and day are 1-based. -/
def daysFromCivil (y : Int) (m d : Int) : Int :=
  let y' := y - (if m ≤ 2 then 1 else 0)
  let era := (if 0 ≤ y' then y' else y' - 399) / 400
  let yoe := y' - era * 400
  let mp := if 2 < m then m - 3 else m + 9
  let doy := (153 * mp + 2) / 5 + d - 1
  let doe := yoe * 365 + yoe / 4 - yoe / 100 + doy
  era * 146097 + doe - 719468

/-- Civil date `(year, month, day)` of a day count since the Unix epoch. -/
def civilFromDays (z : Int) : Int × Int × Int :=
  let z' := z + 719468
  let era := (if 0 ≤ z' then z' else z' - 146096) / 146097
  let doe := z' - era * 146097
  let yoe := (doe - doe / 1460 + doe / 36524 - doe / 146096) / 365
  let y := yoe + era * 400
  let doy := doe - (365 * yoe + yoe / 4 - yoe / 100)
  let mp := (5 * doy + 2) / 153
  let d := doy - (153 * mp + 2) / 5 + 1
  let m := if mp < 10 then mp + 3 else mp - 9
  (y + (if m ≤ 2 then 1 else 0), m, d)

/-- The Excel serial epoch `new Date(1899, 11, 30)` (December 30, 1899)
as a day count since the Unix epoch. -/
def excelEpochDays : Int := daysFromCivil 1899 12 30

/-- Source `excelDateToJSDate`: the JS `Date` built from
`epoch.getTime() + excelDate * 86400000` milliseconds, represented as a
(possibly fractional) day count since the Unix epoch. -/
def excelDateToJSDate (excelDate : Rat) : Rat :=
  (excelEpochDays : Rat) + excelDate

/-- Rendering `String(n).padStart(2, '0')` for a nonnegative integer. -/
def pad2 (n : Int) : String :=
  let s := toString n
  if s.length < 2 then "0" ++ s else s

/-- Source `formatDate`: format a JS date (day count, local calendar) as
`DD.MM.YYYY`. `getFullYear`/`getMonth`/`getDate` read the calendar date
of the instant, i.e. the civil date of the floored day count. (The
source's `isNaN` guard for invalid dates has no counterpart: an invalid
date cannot arise for the exact numeric model.) -/
def formatDate (date : Rat) : String :=
  let (y, m, d) := civilFromDays date.floor
  pad2 d ++ "." ++ pad2 m ++ "." ++ toString y

/-- Source `numberToColumnLetter`: 0-based column number to spreadsheet column
letters (A, B, …, Z, AA, …). -/
def numberToColumnLetter (num : Int) : String :=
  if num < 0 then ""
  else numberToColumnLetter (num / 26 - 1) ++ String.mk [Char.ofNat (65 + (num % 26)).toNat]
termination_by (num + 1).toNat
decreasing_by omega

/-- Spreadsheet cell address (`colLetter + (rowIndex + 1)`, 1-based row)
as computed for direct worksheet access. -/
def cellAddressOf (colIndex rowIndex : Int) : String :=
  numberToColumnLetter colIndex ++ toString (rowIndex + 1)

/-- A worksheet cell as exposed by the spreadsheet library: underlying
value `v` (`none` models an absent/`undefined` property, `some .null` a
`null`), pre-rendered display text `w`, and type tag `t`. -/
structure Cell where
  v : Option JSVal := none
  w : Option String := none
  t : Option String := none
  deriving DecidableEq, Repr

/-- A worksheet in its address-keyed form: an association of cell
addresses (e.g. `"F3"`) to cells. -/
abbrev Worksheet := List (String × Cell)

/-- Property lookup `worksheet[cellAddress]`, `none` when absent. -/
def wsLookup (ws : Worksheet) (addr : String) : Option Cell :=
  (ws.find? (fun p => p.1 = addr)).map (fun p => p.2)

/-- The mutable state of an `ExcelParser` instance: the worksheet
reference kept on `this` (`this.worksheet`), absent before the first
parse. The column mapping and required-column name are set once in the
constructor and never mutated, so they are modelled as constants. -/
structure ParserState where
  worksheet : Option Worksheet := none

/-- Declared value type of a canonical field. -/
inductive FieldType where
  | string
  | number
  deriving DecidableEq, Repr

/-- The table `this.columnMapping`: canonical CSV field name, accepted Excel
header names (first found wins), declared type — in declared order. -/
def columnMapping : List (String × List String × FieldType) :=
  [("BookingNumber", ["Reservation Number", "Reservation Num"], .string),
   ("OTANumber", ["Voucher"], .string),
   ("Name", ["Main Guest"], .string),
   ("NumberOfAdults", ["AD", "Adults"], .number),
   ("NumberOfChildren", ["CH", "Children"], .number),
   ("DateFrom", ["Arrival", "Arrival Date"], .string),
   ("DateTo", ["Departure", "Departure Date"], .string)]

/-- The field name `this.requiredColumn`. -/
def requiredColumn : String := "BookingNumber"

/-- Normalisation applied to a header cell before comparison:
`String(headerRow[i] || '').trim().toLowerCase()`. -/
def headerCellNorm (v : JSVal) : String :=
  jsToLower (jsTrim (if jsTruthy v then jsString v else ""))

/-- Left-to-right scan of the header cells for the first cell whose
normalisation equals the target; 0-based position of the match. -/
def findColumnIndexCore (target : String) : List JSVal → Option Nat
  | [] => none
  | c :: rest =>
    if headerCellNorm c = target then some 0
    else (findColumnIndexCore target rest).map (· + 1)

/-- Source `findColumnIndex`: index of the first header cell matching
`columnName` case-insensitively after trimming, or `-1`. -/
def findColumnIndex (headerRow : List JSVal) (columnName : String) : Int :=
  match findColumnIndexCore (jsToLower (jsTrim columnName)) headerRow with
  | some i => i
  | none => -1

/-- The inner alias loop of `findColumnIndices`: try each possible
column name in declared order, first hit wins, else `-1`. -/
def resolveAliases (headerRow : List JSVal) : List String → Int
  | [] => -1
  | possibleName :: rest =>
    let index := findColumnIndex headerRow possibleName
    if index ≠ -1 then index else resolveAliases headerRow rest

/-- Source `findColumnIndices`: CSV field name → resolved column index
(`-1` when no alias matches). -/
def findColumnIndices (headerRow : List JSVal) : List (String × Int) :=
  columnMapping.map (fun e => (e.1, resolveAliases headerRow e.2.1))

/-- Lookup in the column-index table (`columnIndices[csvFieldName]`);
every looked-up key is present, the default is unreachable. -/
def lookupIdx (indices : List (String × Int)) (name : String) : Int :=
  ((indices.find? (fun p => p.1 = name)).map (fun p => p.2)).getD (-1)

/-- Condition `cell.v && typeof cell.v === 'number'`: the underlying value is a
truthy number. -/
def isTruthyNumber : Option JSVal → Bool
  | some (.num n) => n ≠ 0
  | _ => false

/-- Computing `formatDate(excelDateToJSDate(x))` for a truthy `cell.v` operand
`x`: the multiplication `excelDate * 86400000` coerces its operand with
JS `ToNumber`, so a number is used as-is and a string is parsed as a
complete decimal numeric literal (`jsToNumber`); a string that does not
coerce to a finite number yields an invalid (`NaN` or infinite) date,
which `formatDate` renders as the empty string. -/
def serialOperandString : JSVal → String
  | .num n => formatDate (excelDateToJSDate (n : Rat))
  | .str s =>
    match jsToNumber s with
    | some q => formatDate (excelDateToJSDate q)
    | none => ""
  | _ => ""

/-- The date-handling early return of `getCellValue` once the worksheet
cell was found (`if (cell) { ... }`): `some s` models `return s`,
`none` falling through to `return stringValue`. -/
def getCellValueCellBranch (cell : Cell) (stringValue : String) : Option String :=
  let w := cell.w.getD ""
  if w ≠ "" then some w
  else
    match jsParseFloat stringValue with
    | some numValue =>
      if 1 < numValue ∧ numValue < 1000000 then
        if cell.t = some "d" ∨ isTruthyNumber cell.v then
          -- `const excelDate = cell.v || numValue`
          some (match cell.v with
            | some v =>
              if jsTruthy v then serialOperandString v
              else formatDate (excelDateToJSDate numValue)
            | none => formatDate (excelDateToJSDate numValue))
        else none
      else none
    | none => none

/-- Source `getCellValue`: extract a cell value from a data row as a string;
empty for an unresolved column (`-1`) or a missing/`null` cell. For the
date fields it first tries the worksheet cell at the computed address.
(The `!row` guard of the source is vacuous here: rows are lists.) -/
def getCellValue (st : ParserState) (row : List JSVal) (index : Int)
    (rowIndex : Int := -1) (columnName : String := "") : String :=
  if index = -1 ∨ jsIndex row index = .undefined ∨ jsIndex row index = .null then ""
  else
    let value := jsIndex row index
    let stringValue := jsTrim (jsString value)
    let dateEarly : Option String :=
      if (columnName = "DateFrom" ∨ columnName = "DateTo") ∧ 0 < rowIndex then
        match st.worksheet with
        | some ws =>
          let cellAddress := cellAddressOf index rowIndex
          match wsLookup ws cellAddress with
          | some cell => getCellValueCellBranch cell stringValue
          | none =>
            match jsParseFloat stringValue with
            | some numValue =>
              if 1 < numValue ∧ numValue < 1000000 then
                some (formatDate (excelDateToJSDate numValue))
              else none
            | none => none
        | none => none
      else none
    match dateEarly with
    | some s => s
    | none => stringValue

/-- The regex test `/^\d{2}\.\d{2}\.\d{4}$/.test(s)`. -/
def isDDMMYYYY (s : String) : Bool :=
  match s.data with
  | [a, b, c, d, e, f, g, h, i, j] =>
    a.isDigit && b.isDigit && c = '.' && d.isDigit && e.isDigit && f = '.' &&
      g.isDigit && h.isDigit && i.isDigit && j.isDigit
  | _ => false

/-- The worksheet-cell part of the date handling in `transformRow`
(`if (cell) { ... }`), producing `dateValue` (still `""` when nothing
applied). -/
def dateCellValue (cell : Option Cell) : String :=
  match cell with
  | none => ""
  | some c =>
    let w := c.w.getD ""
    if w ≠ "" then
      let wValue := jsTrim w
      if isDDMMYYYY wValue then wValue
      else
        match c.v with
        | some (.num n) =>
          if 1 < n ∧ n < 1000000 then formatDate (excelDateToJSDate (n : Rat)) else wValue
        | _ => wValue
    else
      -- `cell.v !== undefined && cell.v !== null` (a stored `undefined`
      -- behaves like an absent property)
      match c.v with
      | some v =>
        if v = .undefined ∨ v = .null then ""
        else
          match v with
          | .num n =>
            if 1 < n ∧ n < 1000000 then formatDate (excelDateToJSDate (n : Rat)) else jsString v
          | _ => jsString v
      | none => ""

/-- The full date-field handling in `transformRow` for one of
`DateFrom`/`DateTo`: worksheet-cell resolution first, then the raw-value
fallback (`if (!dateValue && rawValue !== undefined && ...)`). -/
def dateFieldValue (cell : Option Cell) (rawValue : JSVal) : String :=
  let dateValue := dateCellValue cell
  if dateValue = "" ∧ rawValue ≠ .undefined ∧ rawValue ≠ .null ∧ rawValue ≠ .str "" then
    let numValue : Option Rat :=
      match rawValue with
      | .num n => some (n : Rat)
      | _ => jsParseFloat (jsString rawValue)
    match numValue with
    | some q =>
      if 1 < q ∧ q < 1000000 then formatDate (excelDateToJSDate q)
      else jsTrim (jsString rawValue)
    | none => jsTrim (jsString rawValue)
  else dateValue

/-- A value stored in a transformed-record field: the source stores
either a string or a parsed integer in the numeric fields. -/
inductive FieldVal where
  | s (v : String)
  | n (v : Int)
  deriving DecidableEq, Repr

/-- The fixed 10-field output schema. -/
structure TransformedRecord where
  Id : String
  BookingNumber : String
  OTANumber : String
  Name : String
  NumberOfAdults : FieldVal
  NumberOfTeens : Int
  NumberOfChildren : FieldVal
  NumberOfBabys : Int
  DateFrom : String
  DateTo : String
  deriving DecidableEq, Repr

/-- The initial `transformed` object of `transformRow`. -/
def initRecord : TransformedRecord :=
  { Id := "", BookingNumber := "", OTANumber := "", Name := ""
    NumberOfAdults := .s "", NumberOfTeens := 0
    NumberOfChildren := .s "", NumberOfBabys := 0
    DateFrom := "", DateTo := "" }

/-- Assignment `transformed[csvFieldName] = v` for the text-valued fields. -/
def setStrField (t : TransformedRecord) (name : String) (v : String) : TransformedRecord :=
  if name = "BookingNumber" then { t with BookingNumber := v }
  else if name = "OTANumber" then { t with OTANumber := v }
  else if name = "Name" then { t with Name := v }
  else if name = "DateFrom" then { t with DateFrom := v }
  else if name = "DateTo" then { t with DateTo := v }
  else t

/-- Assignment `transformed[csvFieldName] = v` for the integer-typed fields. -/
def setNumField (t : TransformedRecord) (name : String) (v : FieldVal) : TransformedRecord :=
  if name = "NumberOfAdults" then { t with NumberOfAdults := v }
  else if name = "NumberOfChildren" then { t with NumberOfChildren := v }
  else t

/-- The worksheet cell consulted by the date handling of
`transformRow`: present only under
`rowIndex > 0 && this.worksheet && columnIndex !== -1` (the last
conjunct always holds at the call site). -/
def wsCellAt (st : ParserState) (columnIndex rowIndex : Int) : Option Cell :=
  if 0 < rowIndex then
    match st.worksheet with
    | some ws => wsLookup ws (cellAddressOf columnIndex rowIndex)
    | none => none
  else none

/-- One iteration of the mapping loop of `transformRow` for the entry
`(csvFieldName, possibleNames, type)`. -/
def applyField (st : ParserState) (row : List JSVal) (indices : List (String × Int))
    (rowIndex : Int) (t : TransformedRecord) (entry : String × List String × FieldType) :
    TransformedRecord :=
  let csvFieldName := entry.1
  let columnIndex := lookupIdx indices csvFieldName
  if columnIndex = -1 then t
  else
    let rawValue := jsIndex row columnIndex
    if csvFieldName = "DateFrom" ∨ csvFieldName = "DateTo" then
      setStrField t csvFieldName (dateFieldValue (wsCellAt st columnIndex rowIndex) rawValue)
    else
      let cellValue := getCellValue st row columnIndex rowIndex csvFieldName
      let cellValue :=
        if csvFieldName = "BookingNumber" then
          if jsStartsWithZero cellValue then cellValue.drop 1 else cellValue
        else cellValue
      if entry.2.2 = .number then
        setNumField t csvFieldName
          (match jsParseInt cellValue with
           | some numValue => .n numValue
           | none => .s "")
      else setStrField t csvFieldName cellValue

/-- Source `transformRow`: build a `TransformedRecord` from a data row; the
`id` argument of the source is accepted but unused (the final `Id` is
set from `BookingNumber`). -/
def transformRow (st : ParserState) (row : List JSVal) (indices : List (String × Int))
    (id : Nat) (rowIndex : Int) : TransformedRecord :=
  let t := columnMapping.foldl (applyField st row indices rowIndex) initRecord
  { t with Id := if t.BookingNumber ≠ "" then t.BookingNumber else "" }

/-- A row of `sheet_to_json` output: an array of cell values, or a
non-array value (skipped by the row loop). -/
inductive JSRow where
  | arr (cells : List JSVal)
  | notArr
  deriving DecidableEq, Repr

/-- The errors thrown by `parseFile` after the workbook is decoded,
with the data used to build their messages. -/
inductive ParseError where
  | emptyFile
  | noHeader
  | missingRequiredColumn (possibleNames : List String) (availableColumns : List String)
  | noValidRows (possibleNames : List String)
  deriving DecidableEq, Repr

/-- The alias list `this.columnMapping[name].possibleNames`. -/
def mappingAliases (name : String) : List String :=
  (((columnMapping.find? (fun e => e.1 = name)).map (fun e => e.2.1)).getD [])

/-- The message strings of the thrown errors. -/
def errorMessage : ParseError → String
  | .emptyFile => "Die Excel-Datei ist leer."
  | .noHeader => "Die Excel-Datei enthält keine gültige Kopfzeile."
  | .missingRequiredColumn possibleNames availableColumns =>
    "Die erforderliche Spalte \"" ++ String.intercalate "\x22 oder \x22" possibleNames ++
      "\" wurde nicht gefunden. Verfügbare Spalten: " ++ String.intercalate ", " availableColumns
  | .noValidRows possibleNames =>
    "Keine gültigen Zeilen gefunden. Stellen Sie sicher, dass die Spalte \"" ++
      String.intercalate "\x22 oder \x22" possibleNames ++ "\" Werte enthält."

/-- The successful result of a parse. -/
structure ParsedResult where
  rows : List TransformedRecord
  fileName : String
  deriving DecidableEq, Repr

/-- The data-row loop of `parseFile` (lines 105–125): `i` is the
0-based row index into `jsonData`, `rowNumber` the running id of kept
rows. -/
def processRowsAux (st : ParserState) (indices : List (String × Int))
    (bookingNumberIndex : Int) : List JSRow → Nat → Nat → List TransformedRecord
  | [], _, _ => []
  | .notArr :: rest, i, rowNumber =>
    processRowsAux st indices bookingNumberIndex rest (i + 1) rowNumber
  | .arr row :: rest, i, rowNumber =>
    let bookingNumber := getCellValue st row bookingNumberIndex
    if bookingNumber = "" ∨ jsTrim bookingNumber = "" then
      processRowsAux st indices bookingNumberIndex rest (i + 1) rowNumber
    else
      transformRow st row indices rowNumber (i : Int) ::
        processRowsAux st indices bookingNumberIndex rest (i + 1) (rowNumber + 1)

/-- The body of `parseFile` from the point where the first worksheet
has been selected (line 66 onward): stores the worksheet on the parser
state, finds the header, resolves columns, filters and transforms the
data rows. Returns the result (or thrown error) together with the
parser state after the call. -/
def parseWorksheet (st : ParserState) (worksheet : Worksheet) (jsonData : List JSRow)
    (fileName : String) : Except ParseError ParsedResult × ParserState :=
  let st' : ParserState := { worksheet := some worksheet }
  match jsonData with
  | [] => (.error .emptyFile, st')
  | headerRow :: dataRows =>
    match headerRow with
    | .notArr => (.error .noHeader, st')
    | .arr hcells =>
      if hcells.length = 0 then (.error .noHeader, st')
      else
        let columnIndices := findColumnIndices hcells
        if lookupIdx columnIndices requiredColumn = -1 then
          let availableColumns := (hcells.filter jsTruthy).map jsString
          (.error (.missingRequiredColumn (mappingAliases requiredColumn) availableColumns), st')
        else
          let processedRows :=
            processRowsAux st' columnIndices (lookupIdx columnIndices requiredColumn) dataRows 1 1
          if processedRows = [] then
            (.error (.noValidRows (mappingAliases requiredColumn)), st')
          else (.ok { rows := processedRows, fileName := fileName }, st')

/-! ## The CSV export module -/

/-- The list `this.csvColumns`: the fixed output column order. -/
def csvColumns : List String :=
  ["Id", "BookingNumber", "OTANumber", "Name", "NumberOfAdults", "NumberOfTeens",
   "NumberOfChildren", "NumberOfBabys", "DateFrom", "DateTo"]

/-- Rendering `String(value)` for a record field value. -/
def fieldValToString : FieldVal → String
  | .s v => v
  | .n v => toString v

/-- Access `row[column] !== undefined && row[column] !== null ? row[column] : ''`
for the ten schema columns (all are always defined on the record). -/
def getFieldVal (r : TransformedRecord) (column : String) : FieldVal :=
  if column = "Id" then .s r.Id
  else if column = "BookingNumber" then .s r.BookingNumber
  else if column = "OTANumber" then .s r.OTANumber
  else if column = "Name" then .s r.Name
  else if column = "NumberOfAdults" then r.NumberOfAdults
  else if column = "NumberOfTeens" then .n r.NumberOfTeens
  else if column = "NumberOfChildren" then r.NumberOfChildren
  else if column = "NumberOfBabys" then .n r.NumberOfBabys
  else if column = "DateFrom" then .s r.DateFrom
  else if column = "DateTo" then .s r.DateTo
  else .s ""

/-- The escape condition of `escapeCSVValue`: the value contains the
delimiter `';'`, a double quote, or a line break (`includes` with a
single-character needle is character containment). -/
def needsEscape (s : String) : Bool :=
  s.data.any (fun c => c = ';' || c = '"' || c = '\n' || c = '\r')

/-- Replacement `stringValue.replace(/"/g, '""')` at the character level. -/
def doubleQuotes (cs : List Char) : List Char :=
  cs.flatMap (fun c => if c = '"' then ['"', '"'] else [c])

/-- Source `escapeCSVValue` on an already-stringified value. -/
def escapeCSVString (s : String) : String :=
  if needsEscape s then "\"" ++ String.mk (doubleQuotes s.data) ++ "\"" else s

/-- Source `escapeCSVValue`. -/
def escapeCSVValue (value : FieldVal) : String :=
  escapeCSVString (fieldValToString value)

/-- The serialized line of one record. -/
def recordLine (row : TransformedRecord) : String :=
  String.intercalate ";" (csvColumns.map (fun column => escapeCSVValue (getFieldVal row column)))

/-- Source `createCSV`: header line plus one line per record, CRLF-joined;
throws on an empty record collection. -/
def createCSV (rows : List TransformedRecord) : Except String String :=
  if rows = [] then .error "Keine Daten zum Exportieren verfügbar."
  else
    let header := String.intercalate ";" (csvColumns.map escapeCSVString)
    .ok (String.intercalate "\r\n" (header :: rows.map recordLine))

/-! ## Specification-side reference definitions

These definitions follow the wording of the specification/claims, to be
compared against the source-translated definitions above. -/

/-- Modelled from the spec (claim C1): the data rows kept by the Row
Filter — array rows whose required-field cell value is non-blank after
trimming — each paired with its 0-based row index in the grid. -/
def keptWithIdx (st : ParserState) (bookingNumberIndex : Int) :
    List JSRow → Nat → List (Nat × List JSVal)
  | [], _ => []
  | .notArr :: rest, i => keptWithIdx st bookingNumberIndex rest (i + 1)
  | .arr row :: rest, i =>
    if jsTrim (getCellValue st row bookingNumberIndex) = "" then
      keptWithIdx st bookingNumberIndex rest (i + 1)
    else (i, row) :: keptWithIdx st bookingNumberIndex rest (i + 1)

/-- Modelled from the spec (claim C1): the transformation of the kept
rows, in input order, numbering them consecutively from `n`. -/
def transformKept (st : ParserState) (indices : List (String × Int)) :
    List (Nat × List JSVal) → Nat → List TransformedRecord
  | [], _ => []
  | (i, row) :: rest, n =>
    transformRow st row indices n (i : Int) :: transformKept st indices rest (n + 1)

/-- Modelled from the claim C4 verbatim: the six resolution steps as the
claim states them, applied first-success-wins. -/
def dateValueClaimed (cell : Option Cell) (rawValue : JSVal) : String :=
  let display : Option String :=
    match cell with
    | some c => match c.w with | some w => if w ≠ "" then some w else none | none => none
    | none => none
  let underlying : Option JSVal := match cell with | some c => c.v | none => none
  -- step 1: a pre-rendered display string already matching DD.MM.YYYY, verbatim
  let s1 : Option String :=
    match display with
    | some w => if isDDMMYYYY w then some w else none
    | none => none
  -- step 2: an underlying numeric value in the serial range
  let s2 : Option String :=
    match underlying with
    | some (.num n) =>
      if 1 < n ∧ n < 1000000 then some (formatDate (excelDateToJSDate (n : Rat))) else none
    | _ => none
  -- step 3: any pre-rendered display string, verbatim
  let s3 : Option String := display
  -- step 4: numeric raw text parseable to a float in the same range
  let s4 : Option String :=
    match jsParseFloat (jsString rawValue) with
    | some q => if 1 < q ∧ q < 1000000 then some (formatDate (excelDateToJSDate q)) else none
    | none => none
  -- step 5: the trimmed raw text
  let s5 : Option String :=
    if rawValue ≠ .undefined ∧ rawValue ≠ .null then some (jsTrim (jsString rawValue)) else none
  -- first success wins; step 6: no value at all, empty string
  (((((s1.orElse fun _ => s2).orElse fun _ => s3).orElse fun _ => s4).orElse fun _ => s5)).getD ""

/-- Modelled from the claim C4 as amended, cell-derived steps: the
display string is trimmed before pattern-matching and used in trimmed
form; a defined, non-null underlying value with no display string is
used via its (untrimmed) string rendering, with a numeric one in the
serial range serial-converted. -/
def dateValueAmendedCell (cell : Option Cell) : String :=
  let display : Option String :=
    match cell with
    | some c => match c.w with | some w => if w ≠ "" then some w else none | none => none
    | none => none
  let underlying : Option JSVal := match cell with | some c => c.v | none => none
  -- step 1 (amended): display string whose trimming matches DD.MM.YYYY, used trimmed
  match display with
  | some w =>
    if isDDMMYYYY (jsTrim w) then jsTrim w
    else
      -- step 2: underlying numeric value in the serial range
      match underlying with
      | some (.num n) =>
        if 1 < n ∧ n < 1000000 then formatDate (excelDateToJSDate (n : Rat))
        -- step 3 (amended): the display string, trimmed
        else jsTrim w
      | _ => jsTrim w
  | none =>
    -- step 2 without a display string
    match underlying with
    | some (.num n) =>
      if 1 < n ∧ n < 1000000 then formatDate (excelDateToJSDate (n : Rat))
      else jsString (.num n)
    -- step 3b (amended): a defined, non-null underlying value,
    -- string-rendered untrimmed
    | some v => if v = .undefined ∨ v = .null then "" else jsString v
    | none => ""

/-- Modelled from the claim C4 as amended: the raw-value fallback
(steps 4–6, with the raw value used directly when it is already a
number, and excluding `undefined`, `null` and the empty string)
applying exactly when the cell-derived steps produced the empty
string. -/
def dateValueAmended (cell : Option Cell) (rawValue : JSVal) : String :=
  let fromCell : String := dateValueAmendedCell cell
  if fromCell = "" ∧ rawValue ≠ .undefined ∧ rawValue ≠ .null ∧ rawValue ≠ .str "" then
    -- step 4 (amended): numeric raw value, or raw text parseable to a float, in range
    let numValue : Option Rat :=
      match rawValue with
      | .num n => some (n : Rat)
      | _ => jsParseFloat (jsString rawValue)
    match numValue with
    | some q =>
      if 1 < q ∧ q < 1000000 then formatDate (excelDateToJSDate q)
      -- step 5: the trimmed raw text
      else jsTrim (jsString rawValue)
    | none => jsTrim (jsString rawValue)
  -- step 6: otherwise the cell-derived value (possibly the empty string)
  else fromCell

/-- Modelled from the spec (claim C7): split one serialized line at
the delimiter while respecting quoting — outside quotes `';'` ends the
field and `'"'` opens quotes; inside quotes a doubled `'"'` stands for
one quote character and a single `'"'` closes quotes. `inQ` is the
in-quotes state, `acc` the current field, reversed. -/
def splitCSVAux : Bool → List Char → List Char → List String
  | false, [], acc => [String.mk acc.reverse]
  | false, c :: rest, acc =>
    if c = ';' then String.mk acc.reverse :: splitCSVAux false rest []
    else if c = '"' then splitCSVAux true rest acc
    else splitCSVAux false rest (c :: acc)
  | true, [], acc => [String.mk acc.reverse]
  | true, c :: rest, acc =>
    if c = '"' then
      if rest.head? = some '"' then splitCSVAux true rest.tail ('"' :: acc)
      else splitCSVAux false rest acc
    else splitCSVAux true rest (c :: acc)
termination_by _ cs _ => cs.length
decreasing_by
  all_goals simp_wf
  all_goals omega

/-- Modelled from the spec (claim C7): split a serialized line into its
field values. -/
def splitCSVLine (s : String) : List String :=
  splitCSVAux false s.data []

/-- Modelled from the spec (claim C2): header cell `i` matches an
alias when its normalisation (trim, lowercase, falsy cells as `''`)
equals the alias's normalisation. -/
abbrev aliasMatchesAt (hcells : List JSVal) (a : String) (i : Nat) : Prop :=
  i < hcells.length ∧ headerCellNorm (hcells.getD i .undefined) = jsToLower (jsTrim a)

/-! ## Characterisation of the column scan -/

theorem findColumnIndexCore_eq_none (t : String) (cs : List JSVal) :
    findColumnIndexCore t cs = none ↔
      ∀ i, i < cs.length → headerCellNorm (cs.getD i .undefined) ≠ t := by
  induction cs with
  | nil => simp [findColumnIndexCore]
  | cons c cs ih =>
    simp only [findColumnIndexCore]
    by_cases h : headerCellNorm c = t
    · simp only [if_pos h]
      constructor
      · intro hc; cases hc
      · intro hall; exact absurd h (hall 0 (by simp))
    · simp only [if_neg h, Option.map_eq_none']
      rw [ih]
      constructor
      · intro hall i hi
        cases i with
        | zero => simpa using h
        | succ j => simpa using hall j (by simpa using hi)
      · intro hall j hj
        simpa using hall (j + 1) (by simpa using hj)

theorem findColumnIndexCore_eq_some (t : String) (cs : List JSVal) (i : Nat) :
    findColumnIndexCore t cs = some i →
      i < cs.length ∧ headerCellNorm (cs.getD i .undefined) = t ∧
        ∀ j, j < i → headerCellNorm (cs.getD j .undefined) ≠ t := by
  induction cs generalizing i with
  | nil => intro h; cases h
  | cons c cs ih =>
    intro h
    simp only [findColumnIndexCore] at h
    by_cases hc : headerCellNorm c = t
    · rw [if_pos hc] at h
      cases h
      exact ⟨by simp, by simpa using hc, by omega⟩
    · rw [if_neg hc] at h
      obtain ⟨j, hj, rfl⟩ := Option.map_eq_some'.mp h
      obtain ⟨hlt, heq, hall⟩ := ih j hj
      refine ⟨by simpa using Nat.succ_lt_succ hlt, by simpa using heq, ?_⟩
      intro k hk
      cases k with
      | zero => simpa using hc
      | succ k' => simpa using hall k' (by omega)

theorem findColumnIndex_eq_neg1_iff (hcells : List JSVal) (a : String) :
    findColumnIndex hcells a = -1 ↔ ∀ i, ¬ aliasMatchesAt hcells a i := by
  unfold findColumnIndex
  cases h : findColumnIndexCore (jsToLower (jsTrim a)) hcells with
  | none =>
    rw [findColumnIndexCore_eq_none] at h
    simp only [true_iff]
    exact fun i hi => h i hi.1 hi.2
  | some i =>
    obtain ⟨hlt, heq, _⟩ := findColumnIndexCore_eq_some _ _ _ h
    constructor
    · intro hi
      have h2 : (i : Int) = -1 := hi
      exact absurd h2 (by omega)
    · intro hall; exact absurd ⟨hlt, heq⟩ (hall i)

theorem findColumnIndex_spec (hcells : List JSVal) (a : String)
    (h : ∃ i, aliasMatchesAt hcells a i) :
    ∃ i : Nat, findColumnIndex hcells a = (i : Int) ∧ aliasMatchesAt hcells a i ∧
      ∀ j, j < i → ¬ aliasMatchesAt hcells a j := by
  cases hcore : findColumnIndexCore (jsToLower (jsTrim a)) hcells with
  | none =>
    rw [findColumnIndexCore_eq_none] at hcore
    obtain ⟨i, hi⟩ := h
    exact absurd hi.2 (hcore i hi.1)
  | some i =>
    obtain ⟨hlt, heq, hall⟩ := findColumnIndexCore_eq_some _ _ _ hcore
    refine ⟨i, by unfold findColumnIndex; rw [hcore], ⟨hlt, heq⟩, ?_⟩
    intro j hj hm
    exact hall j hj hm.2

theorem resolveAliases_eq_neg1 (hcells : List JSVal) (aliases : List String)
    (h : ∀ a ∈ aliases, ∀ i, ¬ aliasMatchesAt hcells a i) :
    resolveAliases hcells aliases = -1 := by
  induction aliases with
  | nil => rfl
  | cons a rest ih =>
    have ha : findColumnIndex hcells a = -1 :=
      (findColumnIndex_eq_neg1_iff _ _).mpr (h a (by simp))
    unfold resolveAliases
    simp only [ha, ne_eq, not_true_eq_false, if_false]
    exact ih (fun b hb => h b (by simp [hb]))

theorem resolveAliases_first (hcells : List JSVal) (pre : List String) (a : String)
    (post : List String) (hpre : ∀ b ∈ pre, ∀ i, ¬ aliasMatchesAt hcells b i)
    (ha : ∃ i, aliasMatchesAt hcells a i) :
    ∃ i : Nat, resolveAliases hcells (pre ++ a :: post) = (i : Int) ∧
      aliasMatchesAt hcells a i ∧ ∀ j, j < i → ¬ aliasMatchesAt hcells a j := by
  induction pre with
  | nil =>
    obtain ⟨i, h1, h2, h3⟩ := findColumnIndex_spec hcells a ha
    refine ⟨i, ?_, h2, h3⟩
    unfold resolveAliases
    simp only [List.nil_append, h1]
    have : ((i : Int) ≠ -1) := by omega
    simp [this]
  | cons b pre ih =>
    have hb : findColumnIndex hcells b = -1 :=
      (findColumnIndex_eq_neg1_iff _ _).mpr (hpre b (by simp))
    rw [List.cons_append]
    unfold resolveAliases
    simp only [hb, ne_eq, not_true_eq_false, if_false]
    exact ih (fun c hc => hpre c (by simp [hc]))

/-! ## Unfolding the mapping loop, one entry at a time -/

theorem applyField_bookingNumber (st : ParserState) (row : List JSVal)
    (indices : List (String × Int)) (rowIndex : Int) (t : TransformedRecord) :
    applyField st row indices rowIndex t
        ("BookingNumber", ["Reservation Number", "Reservation Num"], .string) =
      { t with BookingNumber :=
          if lookupIdx indices "BookingNumber" = -1 then t.BookingNumber
          else
            let cellValue := getCellValue st row (lookupIdx indices "BookingNumber") rowIndex
              "BookingNumber"
            if jsStartsWithZero cellValue then cellValue.drop 1 else cellValue } := by
  by_cases h : lookupIdx indices "BookingNumber" = -1 <;>
    simp [applyField, setStrField, h]

theorem applyField_otaNumber (st : ParserState) (row : List JSVal)
    (indices : List (String × Int)) (rowIndex : Int) (t : TransformedRecord) :
    applyField st row indices rowIndex t ("OTANumber", ["Voucher"], .string) =
      { t with OTANumber :=
          if lookupIdx indices "OTANumber" = -1 then t.OTANumber
          else getCellValue st row (lookupIdx indices "OTANumber") rowIndex "OTANumber" } := by
  by_cases h : lookupIdx indices "OTANumber" = -1 <;>
    simp [applyField, setStrField, h]

theorem applyField_name (st : ParserState) (row : List JSVal)
    (indices : List (String × Int)) (rowIndex : Int) (t : TransformedRecord) :
    applyField st row indices rowIndex t ("Name", ["Main Guest"], .string) =
      { t with Name :=
          if lookupIdx indices "Name" = -1 then t.Name
          else getCellValue st row (lookupIdx indices "Name") rowIndex "Name" } := by
  by_cases h : lookupIdx indices "Name" = -1 <;>
    simp [applyField, setStrField, h]

theorem applyField_numberOfAdults (st : ParserState) (row : List JSVal)
    (indices : List (String × Int)) (rowIndex : Int) (t : TransformedRecord) :
    applyField st row indices rowIndex t ("NumberOfAdults", ["AD", "Adults"], .number) =
      { t with NumberOfAdults :=
          if lookupIdx indices "NumberOfAdults" = -1 then t.NumberOfAdults
          else
            (match jsParseInt
                (getCellValue st row (lookupIdx indices "NumberOfAdults") rowIndex
                  "NumberOfAdults") with
            | some numValue => .n numValue
            | none => .s "") } := by
  by_cases h : lookupIdx indices "NumberOfAdults" = -1 <;>
    simp [applyField, setNumField, h]

theorem applyField_numberOfChildren (st : ParserState) (row : List JSVal)
    (indices : List (String × Int)) (rowIndex : Int) (t : TransformedRecord) :
    applyField st row indices rowIndex t ("NumberOfChildren", ["CH", "Children"], .number) =
      { t with NumberOfChildren :=
          if lookupIdx indices "NumberOfChildren" = -1 then t.NumberOfChildren
          else
            (match jsParseInt
                (getCellValue st row (lookupIdx indices "NumberOfChildren") rowIndex
                  "NumberOfChildren") with
            | some numValue => .n numValue
            | none => .s "") } := by
  by_cases h : lookupIdx indices "NumberOfChildren" = -1 <;>
    simp [applyField, setNumField, h]

theorem applyField_dateFrom (st : ParserState) (row : List JSVal)
    (indices : List (String × Int)) (rowIndex : Int) (t : TransformedRecord) :
    applyField st row indices rowIndex t ("DateFrom", ["Arrival", "Arrival Date"], .string) =
      { t with DateFrom :=
          if lookupIdx indices "DateFrom" = -1 then t.DateFrom
          else
            (dateFieldValue (wsCellAt st (lookupIdx indices "DateFrom") rowIndex)
              (jsIndex row (lookupIdx indices "DateFrom"))) } := by
  by_cases h : lookupIdx indices "DateFrom" = -1 <;>
    simp [applyField, setStrField, h]

theorem applyField_dateTo (st : ParserState) (row : List JSVal)
    (indices : List (String × Int)) (rowIndex : Int) (t : TransformedRecord) :
    applyField st row indices rowIndex t ("DateTo", ["Departure", "Departure Date"], .string) =
      { t with DateTo :=
          if lookupIdx indices "DateTo" = -1 then t.DateTo
          else
            (dateFieldValue (wsCellAt st (lookupIdx indices "DateTo") rowIndex)
              (jsIndex row (lookupIdx indices "DateTo"))) } := by
  by_cases h : lookupIdx indices "DateTo" = -1 <;>
    simp [applyField, setStrField, h]

/-- Closed form of `transformRow`: each schema field as a function of
the resolved column index and the row/worksheet contents. -/
theorem transformRow_eq (st : ParserState) (row : List JSVal) (indices : List (String × Int))
    (id : Nat) (rowIndex : Int) :
    transformRow st row indices id rowIndex =
      { Id :=
          if (if lookupIdx indices "BookingNumber" = -1 then ""
              else
                let cellValue := getCellValue st row (lookupIdx indices "BookingNumber") rowIndex
                  "BookingNumber"
                if jsStartsWithZero cellValue then cellValue.drop 1 else cellValue) ≠ "" then
            (if lookupIdx indices "BookingNumber" = -1 then ""
              else
                let cellValue := getCellValue st row (lookupIdx indices "BookingNumber") rowIndex
                  "BookingNumber"
                if jsStartsWithZero cellValue then cellValue.drop 1 else cellValue)
          else ""
        BookingNumber :=
          if lookupIdx indices "BookingNumber" = -1 then ""
          else
            let cellValue := getCellValue st row (lookupIdx indices "BookingNumber") rowIndex
              "BookingNumber"
            if jsStartsWithZero cellValue then cellValue.drop 1 else cellValue
        OTANumber :=
          if lookupIdx indices "OTANumber" = -1 then ""
          else getCellValue st row (lookupIdx indices "OTANumber") rowIndex "OTANumber"
        Name :=
          if lookupIdx indices "Name" = -1 then ""
          else getCellValue st row (lookupIdx indices "Name") rowIndex "Name"
        NumberOfAdults :=
          if lookupIdx indices "NumberOfAdults" = -1 then .s ""
          else
            (match jsParseInt
                (getCellValue st row (lookupIdx indices "NumberOfAdults") rowIndex
                  "NumberOfAdults") with
            | some numValue => .n numValue
            | none => .s "")
        NumberOfTeens := 0
        NumberOfChildren :=
          if lookupIdx indices "NumberOfChildren" = -1 then .s ""
          else
            (match jsParseInt
                (getCellValue st row (lookupIdx indices "NumberOfChildren") rowIndex
                  "NumberOfChildren") with
            | some numValue => .n numValue
            | none => .s "")
        NumberOfBabys := 0
        DateFrom :=
          if lookupIdx indices "DateFrom" = -1 then ""
          else
            (dateFieldValue (wsCellAt st (lookupIdx indices "DateFrom") rowIndex)
              (jsIndex row (lookupIdx indices "DateFrom")))
        DateTo :=
          if lookupIdx indices "DateTo" = -1 then ""
          else
            (dateFieldValue (wsCellAt st (lookupIdx indices "DateTo") rowIndex)
              (jsIndex row (lookupIdx indices "DateTo"))) } := by
  simp only [transformRow, columnMapping, List.foldl_cons, List.foldl_nil,
    applyField_bookingNumber, applyField_otaNumber, applyField_name,
    applyField_numberOfAdults, applyField_numberOfChildren, applyField_dateFrom,
    applyField_dateTo, initRecord]

/-! ## The row loop as filter-then-transform -/

theorem processRowsAux_eq (st : ParserState) (indices : List (String × Int)) (bIdx : Int)
    (rows : List JSRow) : ∀ i rowNumber : Nat,
    processRowsAux st indices bIdx rows i rowNumber =
      transformKept st indices (keptWithIdx st bIdx rows i) rowNumber := by
  induction rows with
  | nil => intro i n; rfl
  | cons r rest ih =>
    intro i n
    cases r with
    | notArr => simp only [processRowsAux, keptWithIdx, ih]
    | arr row =>
      by_cases h : jsTrim (getCellValue st row bIdx) = ""
      · have hc : getCellValue st row bIdx = "" ∨ jsTrim (getCellValue st row bIdx) = "" :=
          Or.inr h
        simp only [processRowsAux, keptWithIdx, if_pos hc, if_pos h, ih]
      · have hc : ¬(getCellValue st row bIdx = "" ∨ jsTrim (getCellValue st row bIdx) = "") := by
          rintro (h1 | h1)
          · exact h (by rw [h1]; decide)
          · exact h h1
        simp only [processRowsAux, keptWithIdx, if_neg hc, if_neg h, transformKept, ih]

theorem transformKept_eq_nil_iff (st : ParserState) (indices : List (String × Int))
    (l : List (Nat × List JSVal)) (n : Nat) :
    transformKept st indices l n = [] ↔ l = [] := by
  cases l with
  | nil => simp [transformKept]
  | cons p rest => rcases p with ⟨i, row⟩; simp [transformKept]

/-! ## The quote-respecting splitter inverts the serializer -/

theorem needsEscape_iff (s : String) :
    needsEscape s = true ↔
      (';' ∈ s.data ∨ '"' ∈ s.data ∨ '\n' ∈ s.data ∨ '\r' ∈ s.data) := by
  simp only [needsEscape, List.any_eq_true, Bool.or_eq_true, decide_eq_true_eq]
  constructor
  · rintro ⟨c, hc, hdis⟩
    have hd : c = ';' ∨ c = '"' ∨ c = '\n' ∨ c = '\r' := by tauto
    rcases hd with rfl | rfl | rfl | rfl <;> tauto
  · rintro (h | h | h | h)
    exacts [⟨';', h, by simp⟩, ⟨'"', h, by simp⟩, ⟨'\n', h, by simp⟩, ⟨'\r', h, by simp⟩]

theorem splitCSVAux_false_append (cs : List Char) (rest acc : List Char)
    (h : ∀ c ∈ cs, c ≠ ';' ∧ c ≠ '"') :
    splitCSVAux false (cs ++ rest) acc = splitCSVAux false rest (cs.reverse ++ acc) := by
  induction cs generalizing acc with
  | nil => simp
  | cons c cs ih =>
    have hc := h c (by simp)
    rw [List.cons_append]
    rw [show splitCSVAux false (c :: (cs ++ rest)) acc =
        splitCSVAux false (cs ++ rest) (c :: acc) from by simp [splitCSVAux, hc.1, hc.2]]
    rw [ih _ (fun d hd => h d (by simp [hd]))]
    simp

theorem splitCSVAux_true_doubled (cs : List Char) (rest acc : List Char) :
    splitCSVAux true (doubleQuotes cs ++ rest) acc = splitCSVAux true rest (cs.reverse ++ acc) := by
  induction cs generalizing acc with
  | nil => simp [doubleQuotes]
  | cons c cs ih =>
    by_cases hc : c = '"'
    · subst hc
      rw [show doubleQuotes ('"' :: cs) = '"' :: '"' :: doubleQuotes cs from by
        simp [doubleQuotes]]
      rw [List.cons_append, List.cons_append]
      rw [show splitCSVAux true ('"' :: ('"' :: (doubleQuotes cs ++ rest))) acc =
          splitCSVAux true (doubleQuotes cs ++ rest) ('"' :: acc) from by simp [splitCSVAux]]
      rw [ih]
      simp
    · rw [show doubleQuotes (c :: cs) = c :: doubleQuotes cs from by simp [doubleQuotes, hc]]
      rw [List.cons_append]
      rw [show splitCSVAux true (c :: (doubleQuotes cs ++ rest)) acc =
          splitCSVAux true (doubleQuotes cs ++ rest) (c :: acc) from by simp [splitCSVAux, hc]]
      rw [ih]
      simp

theorem splitCSVAux_true_close (rest acc : List Char) (h : rest.head? ≠ some '"') :
    splitCSVAux true ('"' :: rest) acc = splitCSVAux false rest acc := by
  simp [splitCSVAux, h]

theorem splitCSVAux_field (f : String) (rest acc : List Char)
    (hrest : rest.head? ≠ some '"') :
    splitCSVAux false ((escapeCSVString f).data ++ rest) acc =
      splitCSVAux false rest (f.data.reverse ++ acc) := by
  by_cases h : needsEscape f = true
  · have hdata : (escapeCSVString f).data = '"' :: (doubleQuotes f.data ++ ['"']) := by
      simp [escapeCSVString, h]
    rw [hdata, List.cons_append]
    rw [show splitCSVAux false ('"' :: ((doubleQuotes f.data ++ ['"']) ++ rest)) acc =
        splitCSVAux true ((doubleQuotes f.data ++ ['"']) ++ rest) acc from by simp [splitCSVAux]]
    rw [List.append_assoc, splitCSVAux_true_doubled]
    rw [show ((['"'] ++ rest : List Char)) = '"' :: rest from rfl]
    exact splitCSVAux_true_close rest _ hrest
  · have hf : escapeCSVString f = f := by simp [escapeCSVString, h]
    rw [hf]
    apply splitCSVAux_false_append
    intro c hcmem
    have hno : ¬(';' ∈ f.data ∨ '"' ∈ f.data ∨ '\n' ∈ f.data ∨ '\r' ∈ f.data) :=
      fun habs => h ((needsEscape_iff f).mpr habs)
    constructor
    · intro e; subst e; exact hno (Or.inl hcmem)
    · intro e; subst e; exact hno (Or.inr (Or.inl hcmem))

theorem intercalate_go_data (sep : String) (l : List String) :
    ∀ acc : String, (String.intercalate.go acc sep l).data =
      acc.data ++ l.flatMap (fun x => sep.data ++ x.data) := by
  induction l with
  | nil => intro acc; simp [String.intercalate.go]
  | cons a as ih =>
    intro acc
    rw [show String.intercalate.go acc sep (a :: as) =
        String.intercalate.go (acc ++ sep ++ a) sep as from rfl]
    rw [ih]
    simp

theorem intercalate_data (sep : String) (f : String) (fs : List String) :
    (String.intercalate sep (f :: fs)).data =
      f.data ++ fs.flatMap (fun x => sep.data ++ x.data) := by
  rw [show String.intercalate sep (f :: fs) = String.intercalate.go f sep fs from rfl]
  rw [intercalate_go_data]

theorem splitCSV_fields (f : String) (fs : List String) :
    splitCSVAux false
        ((escapeCSVString f).data ++ (fs.map escapeCSVString).flatMap (fun x => ';' :: x.data))
        [] = f :: fs := by
  induction fs generalizing f with
  | nil =>
    have hfld := splitCSVAux_field f [] [] (by simp)
    simp only [List.map_nil, List.flatMap_nil, List.append_nil] at hfld ⊢
    rw [hfld]
    simp [splitCSVAux]
  | cons g gs ih =>
    simp only [List.map_cons, List.flatMap_cons]
    have hfld := splitCSVAux_field f
      (';' :: ((escapeCSVString g).data ++
        (gs.map escapeCSVString).flatMap (fun x => ';' :: x.data))) [] (by simp)
    rw [show ((';' :: (escapeCSVString g).data) ++
          (gs.map escapeCSVString).flatMap (fun x => ';' :: x.data) : List Char) =
        ';' :: ((escapeCSVString g).data ++
          (gs.map escapeCSVString).flatMap (fun x => ';' :: x.data)) from rfl]
    rw [hfld]
    rw [show splitCSVAux false
          (';' :: ((escapeCSVString g).data ++
            (gs.map escapeCSVString).flatMap (fun x => ';' :: x.data)))
          (f.data.reverse ++ []) =
        String.mk (f.data.reverse ++ []).reverse ::
          splitCSVAux false ((escapeCSVString g).data ++
            (gs.map escapeCSVString).flatMap (fun x => ';' :: x.data)) [] from by
      simp [splitCSVAux]]
    rw [ih g]
    simp

/-! ## Claim theorems -/

/-- The worksheet-cell part of the date handling coincides with the
amended step presentation. -/
theorem dateCellValue_eq_amendedCell (cell : Option Cell) :
    dateCellValue cell = dateValueAmendedCell cell := by
  rcases cell with _ | ⟨v, w, t⟩
  · rfl
  · rcases w with _ | w
    · rcases v with _ | v
      · rfl
      · rcases v <;> simp [dateCellValue, dateValueAmendedCell, jsString]
    · by_cases hw : w = "" <;>
        rcases v with _ | (v | v | v | v) <;>
        simp [dateCellValue, dateValueAmendedCell, hw, jsString]

/-- Claim C7: a field value is wrapped in double quotes with embedded
quotes doubled exactly when it contains the delimiter `';'`, a double
quote, or a CR/LF character, and is emitted unescaped otherwise; and
splitting any produced record line at the delimiter while respecting
quoting recovers every original field value exactly (round-trip). -/
theorem serializer_escape_iff_roundtrip :
    (∀ s : String,
      (escapeCSVString s = "\"" ++ String.mk (doubleQuotes s.data) ++ "\"" ∧
        (';' ∈ s.data ∨ '"' ∈ s.data ∨ '\n' ∈ s.data ∨ '\r' ∈ s.data)) ∨
      (escapeCSVString s = s ∧
        ¬(';' ∈ s.data ∨ '"' ∈ s.data ∨ '\n' ∈ s.data ∨ '\r' ∈ s.data))) ∧
    ∀ r : TransformedRecord,
      splitCSVLine (recordLine r) =
        csvColumns.map (fun column => fieldValToString (getFieldVal r column)) := by
  constructor
  · intro s
    by_cases h : needsEscape s = true
    · exact Or.inl ⟨by simp [escapeCSVString, h], (needsEscape_iff s).mp h⟩
    · exact Or.inr ⟨by simp [escapeCSVString, h], fun habs => h ((needsEscape_iff s).mpr habs)⟩
  · intro r
    unfold splitCSVLine recordLine
    have hmap : csvColumns.map (fun column => escapeCSVValue (getFieldVal r column)) =
        (csvColumns.map (fun column => fieldValToString (getFieldVal r column))).map
          escapeCSVString := by
      rw [List.map_map]; rfl
    rw [hmap]
    have hcols : csvColumns.map (fun column => fieldValToString (getFieldVal r column)) =
        fieldValToString (getFieldVal r "Id") ::
          (["BookingNumber", "OTANumber", "Name", "NumberOfAdults", "NumberOfTeens",
            "NumberOfChildren", "NumberOfBabys", "DateFrom", "DateTo"].map
            (fun column => fieldValToString (getFieldVal r column))) := by
      simp [csvColumns]
    rw [hcols, List.map_cons, intercalate_data]
    exact splitCSV_fields (fieldValToString (getFieldVal r "Id"))
      (["BookingNumber", "OTANumber", "Name", "NumberOfAdults", "NumberOfTeens",
        "NumberOfChildren", "NumberOfBabys", "DateFrom", "DateTo"].map
        (fun column => fieldValToString (getFieldVal r column)))

/-- Claim C1: for every grid with a valid header row in which the
required column resolves, and at least one data row kept, parsing
succeeds and the output records are exactly the transformation, in
input order, of those data rows whose required-field cell value is
non-blank after trimming (blank rows and non-array rows produce no
record, and no reordering occurs). -/
theorem parse_keeps_exactly_nonblank_rows (st : ParserState) (ws : Worksheet)
    (hcells : List JSVal) (dataRows : List JSRow) (fileName : String)
    (hne : hcells.length ≠ 0)
    (hreq : lookupIdx (findColumnIndices hcells) "BookingNumber" ≠ -1)
    (hkept : keptWithIdx { worksheet := some ws }
        (lookupIdx (findColumnIndices hcells) "BookingNumber") dataRows 1 ≠ []) :
    (parseWorksheet st ws (.arr hcells :: dataRows) fileName).1 =
      .ok { rows :=
              transformKept { worksheet := some ws } (findColumnIndices hcells)
                (keptWithIdx { worksheet := some ws }
                  (lookupIdx (findColumnIndices hcells) "BookingNumber") dataRows 1) 1,
            fileName := fileName } := by
  have hpr := processRowsAux_eq { worksheet := some ws } (findColumnIndices hcells)
    (lookupIdx (findColumnIndices hcells) "BookingNumber") dataRows 1 1
  have hnil : ¬(transformKept { worksheet := some ws } (findColumnIndices hcells)
      (keptWithIdx { worksheet := some ws }
        (lookupIdx (findColumnIndices hcells) "BookingNumber") dataRows 1) 1 = []) :=
    fun hh => hkept ((transformKept_eq_nil_iff _ _ _ _).mp hh)
  simp only [parseWorksheet, requiredColumn]
  rw [if_neg hne, if_neg hreq, hpr, if_neg hnil]

/-- Witness for claim C1: a concrete grid — header
`["Reservation Num", "Voucher"]`, one kept row, one blank-required row,
one non-array row, one further kept row — parses to exactly the two
transformed kept rows in order. -/
theorem parse_keeps_exactly_nonblank_rows_witness :
    (([JSVal.str "Reservation Num", JSVal.str "Voucher"] : List JSVal).length ≠ 0) ∧
    lookupIdx (findColumnIndices [JSVal.str "Reservation Num", JSVal.str "Voucher"])
        "BookingNumber" ≠ -1 ∧
    keptWithIdx { worksheet := some [] }
        (lookupIdx (findColumnIndices [JSVal.str "Reservation Num", JSVal.str "Voucher"])
          "BookingNumber")
        [JSRow.arr [JSVal.str "007", JSVal.str "V1"], JSRow.arr [JSVal.str "  ", JSVal.str "V2"],
          JSRow.notArr, JSRow.arr [JSVal.num 12, JSVal.str "V3"]] 1 ≠ [] ∧
    (parseWorksheet { worksheet := none } []
        (JSRow.arr [JSVal.str "Reservation Num", JSVal.str "Voucher"] ::
          [JSRow.arr [JSVal.str "007", JSVal.str "V1"],
            JSRow.arr [JSVal.str "  ", JSVal.str "V2"], JSRow.notArr,
            JSRow.arr [JSVal.num 12, JSVal.str "V3"]]) "b.xlsx").1 =
      .ok { rows :=
              transformKept { worksheet := some [] }
                (findColumnIndices [JSVal.str "Reservation Num", JSVal.str "Voucher"])
                (keptWithIdx { worksheet := some [] }
                  (lookupIdx (findColumnIndices [JSVal.str "Reservation Num", JSVal.str "Voucher"])
                    "BookingNumber")
                  [JSRow.arr [JSVal.str "007", JSVal.str "V1"],
                    JSRow.arr [JSVal.str "  ", JSVal.str "V2"], JSRow.notArr,
                    JSRow.arr [JSVal.num 12, JSVal.str "V3"]] 1) 1,
            fileName := "b.xlsx" } :=
  ⟨by decide, by decide, by decide,
    parse_keeps_exactly_nonblank_rows { worksheet := none } []
      [JSVal.str "Reservation Num", JSVal.str "Voucher"]
      [JSRow.arr [JSVal.str "007", JSVal.str "V1"], JSRow.arr [JSVal.str "  ", JSVal.str "V2"],
        JSRow.notArr, JSRow.arr [JSVal.num 12, JSVal.str "V3"]] "b.xlsx"
      (by decide) (by decide) (by decide)⟩

/-- Claim C8: when no alias of the required field matches any header
cell, parsing fails with the missing-required-column error carrying the
accepted alias names (`"Reservation Number"`, `"Reservation Num"`) and
the header labels actually present (the truthy header cells,
stringified). -/
theorem missing_required_column_error (st : ParserState) (ws : Worksheet)
    (hcells : List JSVal) (dataRows : List JSRow) (fileName : String)
    (hne : hcells.length ≠ 0)
    (hnm : ∀ a ∈ mappingAliases requiredColumn, ∀ i, ¬ aliasMatchesAt hcells a i) :
    (parseWorksheet st ws (.arr hcells :: dataRows) fileName).1 =
      .error (.missingRequiredColumn ["Reservation Number", "Reservation Num"]
        ((hcells.filter (fun h => jsTruthy h)).map jsString)) := by
  have hmap : mappingAliases requiredColumn = ["Reservation Number", "Reservation Num"] := by
    decide
  have hres : lookupIdx (findColumnIndices hcells) "BookingNumber" =
      resolveAliases hcells ["Reservation Number", "Reservation Num"] := by
    simp [findColumnIndices, columnMapping, lookupIdx]
  have hneg : lookupIdx (findColumnIndices hcells) "BookingNumber" = -1 := by
    rw [hres]
    exact resolveAliases_eq_neg1 _ _ (by rw [hmap] at hnm; exact hnm)
  simp only [parseWorksheet, requiredColumn]
  rw [if_neg hne, if_pos hneg]
  rfl

/-- Witness for claim C8: the header `["Foo"]` matches no alias of the
required field, and parsing fails with the error carrying both alias
names and the label `"Foo"`. -/
theorem missing_required_column_error_witness :
    (([JSVal.str "Foo"] : List JSVal).length ≠ 0) ∧
    (parseWorksheet { worksheet := none } [] [JSRow.arr [JSVal.str "Foo"]] "c.xlsx").1 =
      .error (.missingRequiredColumn ["Reservation Number", "Reservation Num"] ["Foo"]) :=
  ⟨by decide,
    missing_required_column_error { worksheet := none } [] [JSVal.str "Foo"] [] "c.xlsx"
      (by decide)
      (by
        intro a ha i
        fin_cases ha
        · exact (findColumnIndex_eq_neg1_iff [JSVal.str "Foo"] "Reservation Number").mp
            (by decide) i
        · exact (findColumnIndex_eq_neg1_iff [JSVal.str "Foo"] "Reservation Num").mp
            (by decide) i)⟩

/-- Claim C5: for every row, the stored `BookingNumber` is the
extracted cell text with exactly one leading `'0'` removed when present
(and empty for an unresolved column), the record's `Id` equals the
post-stripping `BookingNumber`, and the stripping maps `"0012345"` to
`"012345"`, leaves `"12345"` unchanged, and maps `"0"` to `""`. -/
theorem bookingNumber_strip_and_id (st : ParserState) (row : List JSVal)
    (indices : List (String × Int)) (id : Nat) (rowIndex : Int) :
    ((transformRow st row indices id rowIndex).BookingNumber =
      if lookupIdx indices "BookingNumber" = -1 then ""
      else
        let cellValue := getCellValue st row (lookupIdx indices "BookingNumber") rowIndex
          "BookingNumber"
        if jsStartsWithZero cellValue then cellValue.drop 1 else cellValue) ∧
    (transformRow st row indices id rowIndex).Id =
      (transformRow st row indices id rowIndex).BookingNumber ∧
    (if jsStartsWithZero "0012345" then ("0012345" : String).drop 1 else "0012345") = "012345" ∧
    (if jsStartsWithZero "12345" then ("12345" : String).drop 1 else "12345") = "12345" ∧
    (if jsStartsWithZero "0" then ("0" : String).drop 1 else "0") = "" := by
  refine ⟨?_, ?_, by decide, by decide, by decide⟩
  · rw [transformRow_eq]
  · rw [transformRow_eq]
    by_cases h :
        (if lookupIdx indices "BookingNumber" = -1 then ""
          else
            let cellValue := getCellValue st row (lookupIdx indices "BookingNumber") rowIndex
              "BookingNumber"
            if jsStartsWithZero cellValue then cellValue.drop 1 else cellValue) = "" <;>
      simp [h]

/-- Claim C6: for every row, each integer field (`NumberOfAdults`,
`NumberOfChildren`) holds the cell value parsed as an integer, and when
parsing fails (`parseInt` yields no digits — non-numeric or empty cell
text) or the column is unresolved, it holds the empty string, which is
never the number 0. -/
theorem integer_fields_parse_or_empty (st : ParserState) (row : List JSVal)
    (indices : List (String × Int)) (id : Nat) (rowIndex : Int) :
    ((transformRow st row indices id rowIndex).NumberOfAdults =
      if lookupIdx indices "NumberOfAdults" = -1 then .s ""
      else
        (match jsParseInt
            (getCellValue st row (lookupIdx indices "NumberOfAdults") rowIndex
              "NumberOfAdults") with
        | some numValue => .n numValue
        | none => .s "")) ∧
    ((transformRow st row indices id rowIndex).NumberOfChildren =
      if lookupIdx indices "NumberOfChildren" = -1 then .s ""
      else
        (match jsParseInt
            (getCellValue st row (lookupIdx indices "NumberOfChildren") rowIndex
              "NumberOfChildren") with
        | some numValue => .n numValue
        | none => .s "")) ∧
    ∀ n : Int, (FieldVal.s "") ≠ (FieldVal.n n) := by
  refine ⟨?_, ?_, by intro n; simp⟩ <;> rw [transformRow_eq]

/-- Claim C10: cell extraction is total — an unresolved column (`-1`),
an out-of-range or negative index, and an `undefined`/`null` cell all
yield the empty string — and `transformRow` populates every schema
field for a row of any length: unresolved fields keep their defaults
(empty string, `FieldVal.s ""`) and the synthetic numeric fields are
always 0. -/
theorem getCellValue_total_record_complete :
    (∀ (st : ParserState) (row : List JSVal) (rowIndex : Int) (columnName : String),
      getCellValue st row (-1) rowIndex columnName = "") ∧
    (∀ (st : ParserState) (row : List JSVal) (index rowIndex : Int) (columnName : String),
      jsIndex row index = .undefined ∨ jsIndex row index = .null →
      getCellValue st row index rowIndex columnName = "") ∧
    (∀ (st : ParserState) (row : List JSVal) (indices : List (String × Int)) (id : Nat)
        (rowIndex : Int),
      (lookupIdx indices "BookingNumber" = -1 →
        (transformRow st row indices id rowIndex).BookingNumber = "" ∧
        (transformRow st row indices id rowIndex).Id = "") ∧
      (lookupIdx indices "OTANumber" = -1 →
        (transformRow st row indices id rowIndex).OTANumber = "") ∧
      (lookupIdx indices "Name" = -1 → (transformRow st row indices id rowIndex).Name = "") ∧
      (lookupIdx indices "NumberOfAdults" = -1 →
        (transformRow st row indices id rowIndex).NumberOfAdults = .s "") ∧
      (lookupIdx indices "NumberOfChildren" = -1 →
        (transformRow st row indices id rowIndex).NumberOfChildren = .s "") ∧
      (lookupIdx indices "DateFrom" = -1 →
        (transformRow st row indices id rowIndex).DateFrom = "") ∧
      (lookupIdx indices "DateTo" = -1 → (transformRow st row indices id rowIndex).DateTo = "") ∧
      (transformRow st row indices id rowIndex).NumberOfTeens = 0 ∧
      (transformRow st row indices id rowIndex).NumberOfBabys = 0) := by
  refine ⟨?_, ?_, ?_⟩
  · intro st row rowIndex columnName
    simp [getCellValue]
  · intro st row index rowIndex columnName h
    rcases h with h | h <;> simp [getCellValue, h]
  · intro st row indices id rowIndex
    rw [transformRow_eq]
    refine ⟨fun h => ⟨by simp [h], by simp [h]⟩, fun h => by simp [h], fun h => by simp [h],
      fun h => by simp [h], fun h => by simp [h], fun h => by simp [h], fun h => by simp [h],
      by simp, by simp⟩

/-- Witness for claim C10: the empty row with no resolved columns —
extraction of the unresolved index, an out-of-range index and a `null`
cell give `""`, and the transformed record keeps every default. -/
theorem getCellValue_total_record_complete_witness :
    getCellValue { worksheet := none } [] (-1) (-1) "" = "" ∧
    jsIndex [.null] 0 = .null ∧
    getCellValue { worksheet := none } [.null] 0 (-1) "" = "" ∧
    jsIndex [] 5 = .undefined ∧
    getCellValue { worksheet := none } [] 5 (-1) "" = "" ∧
    lookupIdx [] "BookingNumber" = -1 ∧
    (transformRow { worksheet := none } [] [] 1 1).BookingNumber = "" ∧
    (transformRow { worksheet := none } [] [] 1 1).NumberOfAdults = .s "" ∧
    (transformRow { worksheet := none } [] [] 1 1).NumberOfTeens = 0 :=
  ⟨getCellValue_total_record_complete.1 { worksheet := none } [] (-1) "",
    by decide,
    getCellValue_total_record_complete.2.1 { worksheet := none } [.null] 0 (-1) ""
      (Or.inr (by decide)),
    by decide,
    getCellValue_total_record_complete.2.1 { worksheet := none } [] 5 (-1) ""
      (Or.inl (by decide)),
    by decide,
    ((getCellValue_total_record_complete.2.2 { worksheet := none } [] [] 1 1).1 (by decide)).1,
    (getCellValue_total_record_complete.2.2 { worksheet := none } [] [] 1 1).2.2.2.1 (by decide),
    (getCellValue_total_record_complete.2.2 { worksheet := none } [] [] 1 1).2.2.2.2.2.2.2.1⟩

/-- Claim C2: for every header row and every canonical field of the
column mapping, the resolved index is `-1` when no alias matches any
header cell, and otherwise, for the first alias (in declared order)
that matches any header cell, it is the index of the leftmost header
cell matching that alias (case-insensitively, whitespace-trimmed). -/
theorem columnResolver_firstAlias_leftmost (hcells : List JSVal) (name : String)
    (aliases : List String) (ty : FieldType)
    (hmem : (name, aliases, ty) ∈ columnMapping) :
    ((∀ a ∈ aliases, ∀ i, ¬ aliasMatchesAt hcells a i) →
      lookupIdx (findColumnIndices hcells) name = -1) ∧
    ∀ (pre : List String) (a : String) (post : List String), aliases = pre ++ a :: post →
      (∀ b ∈ pre, ∀ i, ¬ aliasMatchesAt hcells b i) → (∃ i, aliasMatchesAt hcells a i) →
      ∃ i : Nat, lookupIdx (findColumnIndices hcells) name = (i : Int) ∧
        aliasMatchesAt hcells a i ∧ ∀ j, j < i → ¬ aliasMatchesAt hcells a j := by
  have hlook : lookupIdx (findColumnIndices hcells) name = resolveAliases hcells aliases := by
    fin_cases hmem <;> simp [findColumnIndices, columnMapping, lookupIdx]
  constructor
  · intro h; rw [hlook]; exact resolveAliases_eq_neg1 _ _ h
  · intro pre a post heq hpre ha
    rw [hlook, heq]
    exact resolveAliases_first _ _ _ _ hpre ha

/-- Witness for claim C2: on the header `[" ARRIVAL ", "Arrival"]`, the
field `DateFrom` resolves through its first alias `"Arrival"` to the
leftmost matching cell, index 0. -/
theorem columnResolver_firstAlias_leftmost_witness :
    ("DateFrom", ["Arrival", "Arrival Date"], FieldType.string) ∈ columnMapping ∧
    ∃ i : Nat,
      lookupIdx (findColumnIndices [.str " ARRIVAL ", .str "Arrival"]) "DateFrom" = (i : Int) ∧
      aliasMatchesAt [.str " ARRIVAL ", .str "Arrival"] "Arrival" i ∧
      ∀ j, j < i → ¬ aliasMatchesAt [.str " ARRIVAL ", .str "Arrival"] "Arrival" j :=
  ⟨by decide,
    (columnResolver_firstAlias_leftmost [.str " ARRIVAL ", .str "Arrival"] "DateFrom"
          ["Arrival", "Arrival Date"] .string (by decide)).2
      [] "Arrival" ["Arrival Date"] rfl (by simp) ⟨0, by decide⟩⟩

/-- Claim C4 (counterexample): for a date cell exposing the underlying
value `"X "` (a non-numeric string with trailing whitespace) and no
display string, with raw value `"X "`, the claimed six-step resolution
yields the trimmed raw text `"X"` (steps 1–4 fail, step 5 applies),
but the code yields the untrimmed string rendering `"X "` of the
underlying value — so the claimed step list is not what the code
computes. -/
theorem dateNormalizer_sixSteps_counterexample :
    dateFieldValue (some { v := some (.str "X ") }) (.str "X ") = "X " ∧
    dateValueClaimed (some { v := some (.str "X ") }) (.str "X ") = "X" ∧
    dateFieldValue (some { v := some (.str "X ") }) (.str "X ") ≠
      dateValueClaimed (some { v := some (.str "X ") }) (.str "X ") :=
  ⟨by decide, by decide, by decide⟩

/-- Claim C4 (amended): for every date-field cell the resolution steps
apply in order with first success winning, where (1) a display string
whose trimming matches `DD.MM.YYYY` is used in trimmed form; (2) else
an underlying numeric value `v` with `1 < v < 1000000` is
serial-converted; (3) else a display string is used in trimmed form,
and with no display string a defined non-null underlying value is used
via its untrimmed string rendering; then, exactly when the cell-derived
steps produced the empty string, (4) a numeric raw value — used
directly when already a number, else parsed from the raw text — in the
same range is serial-converted; (5) else the trimmed raw text is used
(the raw fallback excluding `undefined`, `null` and the empty string);
(6) with no value at all the result is the empty string. -/
theorem dateNormalizer_resolution_order (cell : Option Cell) (rawValue : JSVal) :
    dateFieldValue cell rawValue = dateValueAmended cell rawValue := by
  unfold dateFieldValue dateValueAmended
  rw [dateCellValue_eq_amendedCell]

/-- Claim C3 (counterexample): the Date Normalizer applied to a
date-field cell holding numeric serial 1 does not produce
`"31.12.1899"` — every conversion site guards the heuristic range with
`v > 1`, so the cell's value is passed through as the string `"1"`. -/
theorem dateSerial_one_cell_counterexample :
    dateFieldValue (some { v := some (.num 1), w := none, t := none }) (.num 1) = "1" ∧
    dateFieldValue (some { v := some (.num 1), w := none, t := none }) (.num 1) ≠
      "31.12.1899" :=
  ⟨by decide, by decide⟩

/-- Claim C3 (amended): the Date Normalizer applied to a date-field
cell holding numeric serial 2 produces `"01.01.1900"`, using the
December-30-1899 epoch anchor and the conversion
`date = epoch + serial` days; a cell holding serial 1 falls outside the
`1 < v` range guard, is never serial-converted, and yields the string
`"1"` — only the bare conversion routine maps serial 1 to
`"31.12.1899"`. -/
theorem dateSerial_cell_anchor_amended :
    dateFieldValue (some { v := some (.num 2), w := none, t := none }) (.num 2) =
      "01.01.1900" ∧
    dateFieldValue (some { v := some (.num 1), w := none, t := none }) (.num 1) = "1" ∧
    formatDate (excelDateToJSDate 2) = "01.01.1900" ∧
    formatDate (excelDateToJSDate 1) = "31.12.1899" ∧
    excelEpochDays = daysFromCivil 1899 12 30 ∧
    ∀ v : Rat, excelDateToJSDate v = (excelEpochDays : Rat) + v := by
  have e : excelEpochDays = -25569 := by decide
  have h2 : excelDateToJSDate 2 = ((-25567 : Int) : Rat) := by
    unfold excelDateToJSDate; rw [e]; norm_num
  have h1 : excelDateToJSDate 1 = ((-25568 : Int) : Rat) := by
    unfold excelDateToJSDate; rw [e]; norm_num
  have hf2 : formatDate (excelDateToJSDate 2) = "01.01.1900" := by rw [h2]; decide
  have hcell : dateCellValue (some { v := some (.num 2), w := none, t := none }) =
      formatDate (excelDateToJSDate ((2 : Int) : Rat)) := rfl
  have hcast : ((2 : Int) : Rat) = (2 : Rat) := by norm_num
  have hd2 : dateFieldValue (some { v := some (.num 2), w := none, t := none }) (.num 2) =
      "01.01.1900" := by
    unfold dateFieldValue
    rw [hcell, hcast, h2]
    decide
  exact ⟨hd2, by decide, hf2, by rw [h1]; decide, rfl, fun _ => rfl⟩

/-- Claim C9 (counterexample): parsing a workbook leaves the
workbook-derived worksheet handle stored on the parser state after the
invocation completes — contradicting that no workbook-derived mutable
parsing state persists across files. -/
theorem parserState_worksheet_persists :
    (parseWorksheet { worksheet := none }
        [("A2", { v := some (.num 5) })]
        [.arr [.str "Reservation Num"], .arr [.str "7"]] "a.xlsx").2.worksheet =
      some [("A2", { v := some (.num 5) })] ∧
    some ([("A2", { v := some (.num 5) })] : Worksheet) ≠ (none : Option Worksheet) := by
  constructor
  · decide
  · simp

/-- Claim C9 (amended): the resolved column-index table is local to the
invocation and the worksheet handle, while stored on the parser and
persisting after the call, is overwritten at the start of every
invocation before any use — so both the result and the final state of a
parse depend only on that parse's own input, never on state left by a
previous file. -/
theorem parse_depends_only_on_own_input (s₁ s₂ : ParserState) (ws : Worksheet)
    (jsonData : List JSRow) (fileName : String) :
    parseWorksheet s₁ ws jsonData fileName = parseWorksheet s₂ ws jsonData fileName ∧
    (parseWorksheet s₁ ws jsonData fileName).2 = { worksheet := some ws } := by
  refine ⟨rfl, ?_⟩
  rcases jsonData with _ | ⟨_ | hr, rest⟩ <;>
    simp only [parseWorksheet] <;>
    repeat' split <;> try rfl

end BookingExport
